import Mathlib

/-!
Shallow embedding of `examples/stack_llama/scripts/reward_modeling.py`:
the pairwise reward-model loss, the accuracy metric, the length filter,
the padding collator, and the dataset-subsetting step, together with
theorems settling the specification claims about them.
-/

namespace RewardModeling

/-- Logistic sigmoid `1 / (1 + exp (-x))`, the mathematical function named by
the specification in `loss = -mean(log sigmoid(reward_j - reward_k))`. -/
noncomputable def sigmoid (x : ℝ) : ℝ := 1 / (1 + Real.exp (-x))

/-- `torch.nn.functional.logsigmoid`, used by `RewardTrainer.compute_loss`;
written in the explicit form `-(log (1 + exp (-x)))` of `log(1/(1+exp(-x)))`. -/
noncomputable def logsigmoid (x : ℝ) : ℝ := -Real.log (1 + Real.exp (-x))

/-- `tensor.mean()`: arithmetic mean of a list of reals. -/
noncomputable def mean (l : List ℝ) : ℝ := l.sum / l.length

/-- The four tensor fields that `RewardTrainer.compute_loss` reads from
its `inputs` batch dictionary. -/
structure RewardInputs where
  input_ids_j : List (List ℕ)
  attention_mask_j : List (List ℕ)
  input_ids_k : List (List ℕ)
  attention_mask_k : List (List ℕ)

/-- A reward model: maps a batch of token sequences (with attention masks)
to one scalar reward per example. -/
abbrev RewardModel := List (List ℕ) → List (List ℕ) → List ℝ

/-- `RewardTrainer.compute_loss` from the script:
`rewards_j = model(input_ids_j, attention_mask_j)[0]`,
`rewards_k = model(input_ids_k, attention_mask_k)[0]`,
`loss = -logsigmoid(rewards_j - rewards_k).mean()`;
with `return_outputs` it additionally returns the raw rewards. -/
noncomputable def RewardTrainer.compute_loss (model : RewardModel) (inputs : RewardInputs)
    (return_outputs : Bool) : ℝ × Option (List ℝ × List ℝ) :=
  let rewards_j := model inputs.input_ids_j inputs.attention_mask_j
  let rewards_k := model inputs.input_ids_k inputs.attention_mask_k
  let loss := -(mean ((rewards_j.zip rewards_k).map fun p => logsigmoid (p.1 - p.2)))
  if return_outputs then (loss, some (rewards_j, rewards_k)) else (loss, none)

/-- Modelled from the spec: the loss formula as the specification words it,
`-mean(log sigmoid(reward_j - reward_k))`, elementwise over the batch.
Used only to compare the code's `compute_loss` against the spec. -/
noncomputable def specLoss (rewards_j rewards_k : List ℝ) : ℝ :=
  -(mean ((rewards_j.zip rewards_k).map fun p => Real.log (sigmoid (p.1 - p.2))))

theorem logsigmoid_eq_log_sigmoid (x : ℝ) : logsigmoid x = Real.log (sigmoid x) := by
  simp [logsigmoid, sigmoid, one_div, Real.log_inv]

theorem logsigmoid_nonpos (x : ℝ) : logsigmoid x ≤ 0 := by
  have h : (0 : ℝ) ≤ Real.log (1 + Real.exp (-x)) := by
    apply Real.log_nonneg
    have := Real.exp_pos (-x)
    linarith
  simp only [logsigmoid]
  linarith

theorem list_sum_nonpos : ∀ {l : List ℝ}, (∀ x ∈ l, x ≤ 0) → l.sum ≤ 0
  | [], _ => by simp
  | a :: l, h => by
    have ha : a ≤ 0 := h a (List.mem_cons_self a l)
    have hl : l.sum ≤ 0 := list_sum_nonpos fun x hx => h x (List.mem_cons_of_mem a hx)
    simpa using add_nonpos ha hl

theorem mean_nonpos {l : List ℝ} (h : ∀ x ∈ l, x ≤ 0) : mean l ≤ 0 := by
  have hsum : l.sum ≤ 0 := list_sum_nonpos h
  have hlen : (0 : ℝ) ≤ (l.length : ℝ) := by positivity
  exact div_nonpos_of_nonpos_of_nonneg hsum hlen

theorem mean_replicate (n : ℕ) (c : ℝ) (hn : n ≠ 0) :
    mean (List.replicate n c) = c := by
  simp only [mean, List.sum_replicate, List.length_replicate, nsmul_eq_mul]
  field_simp

/-- C1: for every reward model and input batch, `compute_loss` returns the loss
`-mean(log sigmoid(rewards_j - rewards_k))` (stated via the spec's own formula
`specLoss`), and when `return_outputs` is requested it additionally returns the
raw per-example `rewards_j` and `rewards_k`; otherwise no outputs. -/
theorem compute_loss_spec (model : RewardModel) (inputs : RewardInputs) :
    RewardTrainer.compute_loss model inputs true =
      (specLoss (model inputs.input_ids_j inputs.attention_mask_j)
                (model inputs.input_ids_k inputs.attention_mask_k),
       some (model inputs.input_ids_j inputs.attention_mask_j,
             model inputs.input_ids_k inputs.attention_mask_k)) ∧
    RewardTrainer.compute_loss model inputs false =
      (specLoss (model inputs.input_ids_j inputs.attention_mask_j)
                (model inputs.input_ids_k inputs.attention_mask_k),
       none) := by
  constructor <;>
    simp [RewardTrainer.compute_loss, specLoss, logsigmoid_eq_log_sigmoid]

/-- C5 (amended): the loss is always nonnegative, because
`-log sigmoid(x) ≥ 0` for every real `x`. -/
theorem compute_loss_nonneg (model : RewardModel) (inputs : RewardInputs)
    (return_outputs : Bool) :
    (0 ≤ (RewardTrainer.compute_loss model inputs return_outputs).1) ∧
    ∀ x : ℝ, 0 ≤ -logsigmoid x := by
  refine ⟨?_, fun x => by linarith [logsigmoid_nonpos x]⟩
  have h : mean (((model inputs.input_ids_j inputs.attention_mask_j).zip
      (model inputs.input_ids_k inputs.attention_mask_k)).map
      fun p => logsigmoid (p.1 - p.2)) ≤ 0 := by
    apply mean_nonpos
    intro x hx
    rcases List.mem_map.1 hx with ⟨p, _, rfl⟩
    exact logsigmoid_nonpos _
  cases return_outputs <;> simp [RewardTrainer.compute_loss] <;> linarith

/-- A concrete one-example batch on which the loss exceeds `ln 2`:
the model scores the k-sequence one unit above the j-sequence. -/
def overconfidentInputs : RewardInputs :=
  { input_ids_j := [[0]], attention_mask_j := [[1]],
    input_ids_k := [[1]], attention_mask_k := [[1]] }

/-- A concrete reward model assigning each sequence its first token as reward. -/
noncomputable def headTokenModel : RewardModel :=
  fun ids _ => ids.map fun s => (s.headD 0 : ℝ)

/-- C5 (counterexample): on the concrete one-example batch with
`reward_j = 0` and `reward_k = 1`, the computed loss is `log (1 + e) > ln 2`,
so the loss does not lie in the interval `[0, ln 2]` for every batch. -/
theorem compute_loss_not_bounded_by_log_two :
    ¬ ((RewardTrainer.compute_loss headTokenModel overconfidentInputs false).1 ≤
        Real.log 2) := by
  have hval : (RewardTrainer.compute_loss headTokenModel overconfidentInputs false).1 =
      Real.log (1 + Real.exp 1) := by
    simp [RewardTrainer.compute_loss, headTokenModel, overconfidentInputs, mean, logsigmoid]
  rw [hval]
  have h2 : (2 : ℝ) < 1 + Real.exp 1 := by
    have := Real.add_one_le_exp (1 : ℝ)
    linarith
  exact not_le.2 (Real.log_lt_log (by norm_num) h2)

theorem zip_self_map_logsigmoid (l : List ℝ) :
    ((l.zip l).map fun p => logsigmoid (p.1 - p.2)) =
      List.replicate l.length (logsigmoid 0) := by
  induction l with
  | nil => simp
  | cons a l ih => simp [ih, List.replicate_succ]

theorem logsigmoid_zero : logsigmoid 0 = -Real.log 2 := by
  norm_num [logsigmoid]

/-- C6: if the rewards for the j-side and the k-side agree on every example of
a non-empty batch, the computed loss is exactly `ln 2`. -/
theorem compute_loss_of_equal_rewards (model : RewardModel) (inputs : RewardInputs)
    (return_outputs : Bool)
    (heq : model inputs.input_ids_j inputs.attention_mask_j =
           model inputs.input_ids_k inputs.attention_mask_k)
    (hne : model inputs.input_ids_j inputs.attention_mask_j ≠ []) :
    (RewardTrainer.compute_loss model inputs return_outputs).1 = Real.log 2 := by
  have hlen : (model inputs.input_ids_j inputs.attention_mask_j).length ≠ 0 :=
    fun h => hne (List.eq_nil_of_length_eq_zero h)
  have hmean : mean (((model inputs.input_ids_j inputs.attention_mask_j).zip
      (model inputs.input_ids_k inputs.attention_mask_k)).map
      fun p => logsigmoid (p.1 - p.2)) = -Real.log 2 := by
    rw [← heq, zip_self_map_logsigmoid, logsigmoid_zero, mean_replicate _ _ hlen]
  cases return_outputs <;> simp [RewardTrainer.compute_loss, hmean]

/-- C6 (witness): a constant reward model on a concrete one-example batch
yields loss `ln 2`. -/
theorem compute_loss_of_equal_rewards_witness :
    (RewardTrainer.compute_loss (fun _ _ => [0])
      (RewardInputs.mk [[2]] [[1]] [[3]] [[1]]) false).1 = Real.log 2 :=
  compute_loss_of_equal_rewards (fun _ _ => [0])
    (RewardInputs.mk [[2]] [[1]] [[3]] [[1]]) false rfl (by simp)

/-- One column of `np.argmax(predictions, axis=0)` where `predictions` stacks
`rewards_j` over `rewards_k`: index of the first maximum, so `0` unless the
k-reward is strictly larger. -/
noncomputable def argmax0 (rj rk : ℝ) : ℕ := if rj < rk then 1 else 0

/-- `evaluate.load("accuracy").compute`: the fraction of positions where the
prediction equals the reference. -/
noncomputable def accuracy_compute (predictions references : List ℕ) : ℝ :=
  (((predictions.zip references).countP fun p => p.1 == p.2 : ℕ) : ℝ) /
    (predictions.length : ℝ)

/-- `compute_metrics` from the script: argmax the stacked
`(rewards_j, rewards_k)` along its two-element axis, compare with an all-zero
label vector, and report accuracy. -/
noncomputable def compute_metrics (rewards_j rewards_k : List ℝ) : ℝ :=
  let predictions := (rewards_j.zip rewards_k).map fun p => argmax0 p.1 p.2
  let labels := List.replicate predictions.length 0
  accuracy_compute predictions labels

theorem countP_zip_replicate_zero (preds : List ℕ) :
    ((preds.zip (List.replicate preds.length 0)).countP fun p => p.1 == p.2) =
      preds.countP fun a => a == 0 := by
  induction preds with
  | nil => simp
  | cons a l ih =>
    simp only [List.length_cons, List.replicate_succ, List.zip_cons_cons,
      List.countP_cons, ih]

theorem compute_metrics_eq_fraction (rewards_j rewards_k : List ℝ) :
    compute_metrics rewards_j rewards_k =
      ((((rewards_j.zip rewards_k).countP fun p => argmax0 p.1 p.2 == 0 : ℕ) : ℝ) /
        ((rewards_j.zip rewards_k).length : ℝ)) := by
  simp only [compute_metrics, accuracy_compute]
  rw [countP_zip_replicate_zero, List.countP_map, List.length_map]
  rfl

/-- C2: the accuracy metric equals the fraction of examples whose argmax over
the two-element `(reward_j, reward_k)` axis matches the all-zero label vector;
on a non-empty batch it is `1` when `reward_j > reward_k` everywhere and `0`
when `reward_j < reward_k` everywhere. -/
theorem compute_metrics_correct (rewards_j rewards_k : List ℝ)
    (hlen : rewards_j.length = rewards_k.length) (hne : rewards_j ≠ []) :
    (compute_metrics rewards_j rewards_k =
      ((((rewards_j.zip rewards_k).countP fun p => argmax0 p.1 p.2 == 0 : ℕ) : ℝ) /
        ((rewards_j.zip rewards_k).length : ℝ))) ∧
    ((∀ p ∈ rewards_j.zip rewards_k, p.1 > p.2) →
      compute_metrics rewards_j rewards_k = 1) ∧
    ((∀ p ∈ rewards_j.zip rewards_k, p.1 < p.2) →
      compute_metrics rewards_j rewards_k = 0) := by
  have hzlen : (rewards_j.zip rewards_k).length = rewards_j.length := by
    simp [List.length_zip, hlen]
  have hnz : rewards_j.length ≠ 0 := fun h => hne (List.eq_nil_of_length_eq_zero h)
  have hz : ((rewards_j.zip rewards_k).length : ℝ) ≠ 0 := by
    rw [hzlen]
    exact Nat.cast_ne_zero.mpr hnz
  refine ⟨compute_metrics_eq_fraction _ _, fun hgt => ?_, fun hlt => ?_⟩
  · rw [compute_metrics_eq_fraction]
    have hcount : ((rewards_j.zip rewards_k).countP fun p => argmax0 p.1 p.2 == 0) =
        (rewards_j.zip rewards_k).length := by
      apply List.countP_eq_length.2
      intro p hp
      have : ¬ p.1 < p.2 := not_lt.2 (le_of_lt (hgt p hp))
      simp [argmax0, this]
    rw [hcount, div_self hz]
  · rw [compute_metrics_eq_fraction]
    have hcount : ((rewards_j.zip rewards_k).countP fun p => argmax0 p.1 p.2 == 0) = 0 := by
      apply List.countP_eq_zero.2
      intro p hp
      simp [argmax0, hlt p hp]
    rw [hcount]
    simp

/-- C2 (witness): on the one-example batch with `reward_j = 1 > 0 = reward_k`
the metric reports `1`. -/
theorem compute_metrics_correct_witness :
    compute_metrics [(1 : ℝ)] [(0 : ℝ)] = 1 :=
  (compute_metrics_correct [(1 : ℝ)] [(0 : ℝ)] rfl (by simp)).2.1
    (by intro p hp; simp at hp; simp [hp])

/-- C9: on a tied example the argmax along the two-element axis returns
index `0`, matching the all-zero labels; consequently a non-empty batch of
ties is scored as fully correct, accuracy `1`. -/
theorem tie_counts_as_correct (rewards_j rewards_k : List ℝ)
    (hlen : rewards_j.length = rewards_k.length) (hne : rewards_j ≠ [])
    (hties : ∀ p ∈ rewards_j.zip rewards_k, p.1 = p.2) :
    (∀ p ∈ rewards_j.zip rewards_k, argmax0 p.1 p.2 = 0) ∧
    compute_metrics rewards_j rewards_k = 1 := by
  have hzlen : (rewards_j.zip rewards_k).length = rewards_j.length := by
    simp [List.length_zip, hlen]
  have hnz : rewards_j.length ≠ 0 := fun h => hne (List.eq_nil_of_length_eq_zero h)
  have hz : ((rewards_j.zip rewards_k).length : ℝ) ≠ 0 := by
    rw [hzlen]
    exact Nat.cast_ne_zero.mpr hnz
  have hpred : ∀ p ∈ rewards_j.zip rewards_k, argmax0 p.1 p.2 = 0 := by
    intro p hp
    have : ¬ p.1 < p.2 := by rw [hties p hp]; exact lt_irrefl _
    simp [argmax0, this]
  refine ⟨hpred, ?_⟩
  rw [compute_metrics_eq_fraction]
  have hcount : ((rewards_j.zip rewards_k).countP fun p => argmax0 p.1 p.2 == 0) =
      (rewards_j.zip rewards_k).length := by
    apply List.countP_eq_length.2
    intro p hp
    simp [hpred p hp]
  rw [hcount, div_self hz]

/-- C9 (witness): a concrete tied one-example batch is scored as accuracy `1`. -/
theorem tie_counts_as_correct_witness :
    compute_metrics [(2 : ℝ)] [(2 : ℝ)] = 1 :=
  (tie_counts_as_correct [(2 : ℝ)] [(2 : ℝ)] rfl (by simp)
    (by intro p hp; simp at hp; simp [hp])).2

/-- One tokenized example of the preference dataset after `preprocess_function`:
the four fields produced for the j-sequence and the k-sequence. -/
structure TokenizedFeature where
  input_ids_j : List ℕ
  attention_mask_j : List ℕ
  input_ids_k : List ℕ
  attention_mask_k : List ℕ
  deriving DecidableEq

/-- The `lambda x: len(x["input_ids_j"]) <= 512 and len(x["input_ids_k"]) <= 512`
filter applied to the tokenized dataset: over-length examples are dropped. -/
def length_filter (ds : List TokenizedFeature) : List TokenizedFeature :=
  ds.filter fun x =>
    decide (x.input_ids_j.length ≤ 512 ∧ x.input_ids_k.length ≤ 512)

/-- C4: every example surviving the filter has both tokenized sequences of
length at most 512; an example violating either bound is excluded from the
output, and the output is a sublist of the input (examples are silently
dropped, never transformed and no error value is produced). -/
theorem length_filter_correct (ds : List TokenizedFeature) :
    (∀ x ∈ length_filter ds,
        x.input_ids_j.length ≤ 512 ∧ x.input_ids_k.length ≤ 512) ∧
    (∀ x ∈ ds, ¬ (x.input_ids_j.length ≤ 512 ∧ x.input_ids_k.length ≤ 512) →
        x ∉ length_filter ds) ∧
    List.Sublist (length_filter ds) ds := by
  refine ⟨?_, ?_, List.filter_sublist ds⟩
  · intro x hx
    have := List.of_mem_filter hx
    simpa using this
  · intro x _ hviol hmem
    exact hviol (by simpa using List.of_mem_filter hmem)

/-- C4 (witness): a concrete over-length example (513 j-tokens) is excluded
from the filtered dataset. -/
theorem length_filter_correct_witness :
    TokenizedFeature.mk (List.replicate 513 0) (List.replicate 513 1) [0] [1] ∉
      length_filter [TokenizedFeature.mk (List.replicate 513 0)
        (List.replicate 513 1) [0] [1]] :=
  (length_filter_correct [TokenizedFeature.mk (List.replicate 513 0)
      (List.replicate 513 1) [0] [1]]).2.1 _ (List.mem_singleton.mpr rfl)
    (by intro h; rw [List.length_replicate] at h; exact absurd h.1 (by norm_num))

/-- One entry of the lists handed to `tokenizer.pad` by the collator:
`{"input_ids": ..., "attention_mask": ...}`. -/
structure EncodedInput where
  input_ids : List ℕ
  attention_mask : List ℕ
  deriving DecidableEq

/-- Longest `input_ids` length in a batch, the padding target of
`tokenizer.pad` under its `padding=True` (pad-to-longest) strategy. -/
def maxInputLen (features : List EncodedInput) : ℕ :=
  List.foldr (fun f m => max f.input_ids.length m) 0 features

/-- `tokenizer.pad` with `padding=True` (pad to the longest sequence in the
batch): right-pads every `input_ids` with the pad token and every
`attention_mask` with `0` up to the batch maximum `input_ids` length. -/
def tokenizer_pad (pad_token_id : ℕ) (features : List EncodedInput) :
    List EncodedInput :=
  features.map fun f =>
    { input_ids :=
        f.input_ids ++ List.replicate (maxInputLen features - f.input_ids.length)
          pad_token_id,
      attention_mask :=
        f.attention_mask ++
          List.replicate (maxInputLen features - f.attention_mask.length) 0 }

/-- A value of the batch dictionary built by the collator: either a padded
integer tensor or the boolean `return_loss` flag. -/
inductive BatchValue where
  | tensor : List (List ℕ) → BatchValue
  | flag : Bool → BatchValue
  deriving DecidableEq

/-- `RewardDataCollatorWithPadding.__call__`: split each feature into its j
and k halves, pad each side with `tokenizer.pad`, and assemble the batch
dictionary with the `return_loss` flag set. -/
def RewardDataCollatorWithPadding.call (pad_token_id : ℕ)
    (features : List TokenizedFeature) : List (String × BatchValue) :=
  let features_j := features.map fun f =>
    EncodedInput.mk f.input_ids_j f.attention_mask_j
  let features_k := features.map fun f =>
    EncodedInput.mk f.input_ids_k f.attention_mask_k
  let batch_j := tokenizer_pad pad_token_id features_j
  let batch_k := tokenizer_pad pad_token_id features_k
  [("input_ids_j", BatchValue.tensor (batch_j.map EncodedInput.input_ids)),
   ("attention_mask_j", BatchValue.tensor (batch_j.map EncodedInput.attention_mask)),
   ("input_ids_k", BatchValue.tensor (batch_k.map EncodedInput.input_ids)),
   ("attention_mask_k", BatchValue.tensor (batch_k.map EncodedInput.attention_mask)),
   ("return_loss", BatchValue.flag true)]

/-- C7: the collator's batch always carries `return_loss = true` and has no
`labels` (or `label`) entry. -/
theorem collator_return_loss_no_labels (pad_token_id : ℕ)
    (features : List TokenizedFeature) :
    List.lookup "return_loss" (RewardDataCollatorWithPadding.call pad_token_id features) =
      some (BatchValue.flag true) ∧
    List.lookup "labels" (RewardDataCollatorWithPadding.call pad_token_id features) =
      none ∧
    List.lookup "label" (RewardDataCollatorWithPadding.call pad_token_id features) =
      none := by
  refine ⟨?_, ?_, ?_⟩ <;> simp [RewardDataCollatorWithPadding.call, List.lookup]

theorem le_maxInputLen (features : List EncodedInput) :
    ∀ f ∈ features, f.input_ids.length ≤ maxInputLen features := by
  induction features with
  | nil => intro f hf; simp at hf
  | cons g rest ih =>
    intro f hf
    rcases List.mem_cons.1 hf with h | h
    · subst h
      exact le_max_left _ _
    · exact le_trans (ih f h) (le_max_right _ _)

theorem maxInputLen_le (features : List EncodedInput) (bound : ℕ)
    (h : ∀ f ∈ features, f.input_ids.length ≤ bound) :
    maxInputLen features ≤ bound := by
  induction features with
  | nil => exact Nat.zero_le bound
  | cons g rest ih =>
    refine max_le (h g (List.mem_cons_self _ _)) (ih ?_)
    intro f hf
    exact h f (List.mem_cons_of_mem _ hf)

theorem maxInputLen_attained (features : List EncodedInput) (hne : features ≠ []) :
    ∃ f ∈ features, f.input_ids.length = maxInputLen features := by
  induction features with
  | nil => exact absurd rfl hne
  | cons g rest ih =>
    cases rest with
    | nil => exact ⟨g, List.mem_singleton.mpr rfl, by simp [maxInputLen]⟩
    | cons g2 rest2 =>
      rcases ih (by simp) with ⟨x, hx, hxl⟩
      by_cases hc : maxInputLen (g2 :: rest2) ≤ g.input_ids.length
      · refine ⟨g, List.mem_cons_self _ _, ?_⟩
        show g.input_ids.length = max g.input_ids.length (maxInputLen (g2 :: rest2))
        rw [max_eq_left hc]
      · refine ⟨x, List.mem_cons_of_mem _ hx, ?_⟩
        show x.input_ids.length = max g.input_ids.length (maxInputLen (g2 :: rest2))
        rw [max_eq_right (le_of_not_le hc)]
        exact hxl

theorem tokenizer_pad_length (pad_token_id : ℕ) (features : List EncodedInput) :
    ∀ s ∈ (tokenizer_pad pad_token_id features).map EncodedInput.input_ids,
      s.length = maxInputLen features := by
  intro s hs
  simp only [tokenizer_pad, List.map_map, List.mem_map, Function.comp] at hs
  rcases hs with ⟨f, hf, rfl⟩
  simp only [List.length_append, List.length_replicate]
  exact Nat.add_sub_cancel' (le_maxInputLen features f hf)

/-- The padded j-side tensor the collator places under `"input_ids_j"`. -/
def batch_j_ids (pad_token_id : ℕ) (features : List TokenizedFeature) :
    List (List ℕ) :=
  (tokenizer_pad pad_token_id (features.map fun f =>
    EncodedInput.mk f.input_ids_j f.attention_mask_j)).map EncodedInput.input_ids

/-- The padded k-side tensor the collator places under `"input_ids_k"`. -/
def batch_k_ids (pad_token_id : ℕ) (features : List TokenizedFeature) :
    List (List ℕ) :=
  (tokenizer_pad pad_token_id (features.map fun f =>
    EncodedInput.mk f.input_ids_k f.attention_mask_k)).map EncodedInput.input_ids

/-- The longest j-side `input_ids` length within a batch of features. -/
def maxJ (features : List TokenizedFeature) : ℕ :=
  maxInputLen (features.map fun f => EncodedInput.mk f.input_ids_j f.attention_mask_j)

/-- The longest k-side `input_ids` length within a batch of features. -/
def maxK (features : List TokenizedFeature) : ℕ :=
  maxInputLen (features.map fun f => EncodedInput.mk f.input_ids_k f.attention_mask_k)

/-- C3: on a non-empty batch whose sequences respect the 512 filter bound, the
collator pads every j-sequence to the same length `maxJ` and every k-sequence
to the same length `maxK`; `maxJ` is the maximum j-side length of the batch and
`maxK` the maximum k-side length (so each side is padded independently of the
other), and both common lengths are at most the configured maximum of 512. -/
theorem collator_pads_sides_independently (pad_token_id : ℕ)
    (features : List TokenizedFeature) (hne : features ≠ [])
    (hbound : ∀ f ∈ features,
      f.input_ids_j.length ≤ 512 ∧ f.input_ids_k.length ≤ 512) :
    List.lookup "input_ids_j"
        (RewardDataCollatorWithPadding.call pad_token_id features) =
      some (BatchValue.tensor (batch_j_ids pad_token_id features)) ∧
    List.lookup "input_ids_k"
        (RewardDataCollatorWithPadding.call pad_token_id features) =
      some (BatchValue.tensor (batch_k_ids pad_token_id features)) ∧
    (∀ s ∈ batch_j_ids pad_token_id features, s.length = maxJ features) ∧
    (∀ s ∈ batch_k_ids pad_token_id features, s.length = maxK features) ∧
    (∀ f ∈ features, f.input_ids_j.length ≤ maxJ features) ∧
    (∃ f ∈ features, f.input_ids_j.length = maxJ features) ∧
    (∀ f ∈ features, f.input_ids_k.length ≤ maxK features) ∧
    (∃ f ∈ features, f.input_ids_k.length = maxK features) ∧
    maxJ features ≤ 512 ∧ maxK features ≤ 512 := by
  have hmapne : ∀ (g : TokenizedFeature → EncodedInput),
      features.map g ≠ [] := by
    intro g h
    exact hne (List.map_eq_nil_iff.1 h)
  refine ⟨?_, ?_, tokenizer_pad_length _ _, tokenizer_pad_length _ _,
    ?_, ?_, ?_, ?_, ?_, ?_⟩
  · simp [RewardDataCollatorWithPadding.call, batch_j_ids, List.lookup]
  · simp [RewardDataCollatorWithPadding.call, batch_k_ids, List.lookup]
  · intro f hf
    have h := le_maxInputLen _ _
      (List.mem_map_of_mem (fun f => EncodedInput.mk f.input_ids_j f.attention_mask_j) hf)
    simpa [maxJ] using h
  · rcases maxInputLen_attained
        (features.map fun f => EncodedInput.mk f.input_ids_j f.attention_mask_j)
        (hmapne _) with ⟨g, hg, hgl⟩
    rcases List.mem_map.1 hg with ⟨f, hf, rfl⟩
    exact ⟨f, hf, by simpa [maxJ] using hgl⟩
  · intro f hf
    have h := le_maxInputLen _ _
      (List.mem_map_of_mem (fun f => EncodedInput.mk f.input_ids_k f.attention_mask_k) hf)
    simpa [maxK] using h
  · rcases maxInputLen_attained
        (features.map fun f => EncodedInput.mk f.input_ids_k f.attention_mask_k)
        (hmapne _) with ⟨g, hg, hgl⟩
    rcases List.mem_map.1 hg with ⟨f, hf, rfl⟩
    exact ⟨f, hf, by simpa [maxK] using hgl⟩
  · refine maxInputLen_le _ _ ?_
    intro g hg
    rcases List.mem_map.1 hg with ⟨f, hf, rfl⟩
    exact (hbound f hf).1
  · refine maxInputLen_le _ _ ?_
    intro g hg
    rcases List.mem_map.1 hg with ⟨f, hf, rfl⟩
    exact (hbound f hf).2

/-- C3 (witness): on a concrete two-example batch the collator's
`"input_ids_j"` entry is the independently padded j-side tensor. -/
theorem collator_pads_sides_independently_witness :
    List.lookup "input_ids_j"
        (RewardDataCollatorWithPadding.call 5
          [TokenizedFeature.mk [7] [1] [8, 9, 10] [1, 1, 1],
           TokenizedFeature.mk [4, 6] [1, 1] [2] [1]]) =
      some (BatchValue.tensor (batch_j_ids 5
        [TokenizedFeature.mk [7] [1] [8, 9, 10] [1, 1, 1],
         TokenizedFeature.mk [4, 6] [1, 1] [2] [1]])) :=
  (collator_pads_sides_independently 5
    [TokenizedFeature.mk [7] [1] [8, 9, 10] [1, 1, 1],
     TokenizedFeature.mk [4, 6] [1, 1] [2] [1]] (by simp) (by simp)).1

/-- The `train[:10%]` slice of `load_dataset`: the first tenth (rounded down)
of the rows, in order. -/
def percentage_split {α : Type} (ds : List α) : List α :=
  ds.take (ds.length * 10 / 100)

/-- `dataset.select(range(n))`: the first `n` rows, in order; selecting an
index beyond the dataset length is an error, modelled as `none`. -/
def select_range {α : Type} (ds : List α) (n : ℕ) : Option (List α) :=
  if n ≤ ds.length then some (ds.take n) else none

/-- The guarded subsetting step of the script:
`if subset > 0: dataset = dataset.select(range(subset))`. -/
def subset_step {α : Type} (ds : List α) (subset : ℤ) : Option (List α) :=
  if 0 < subset then select_range ds subset.toNat else some ds

/-- One run of the dataset-subsetting stage: percentage split, then the
guarded `select`. The script draws no randomness here, so the seed argument
(present only to state the determinism claim) is never consulted. -/
def dataset_subsetting {α : Type} (_seed : ℕ) (ds : List α) (subset : ℤ) :
    Option (List α) :=
  subset_step (percentage_split ds) subset

/-- C8: dataset subsetting is deterministic: two runs over the same loaded
dataset with the same subset size select identical example sets, whatever
seeds the two runs carry. -/
theorem dataset_subsetting_deterministic {α : Type} (seed₁ seed₂ : ℕ)
    (ds₁ ds₂ : List α) (n₁ n₂ : ℤ) (hds : ds₁ = ds₂) (hn : n₁ = n₂) :
    dataset_subsetting seed₁ ds₁ n₁ = dataset_subsetting seed₂ ds₂ n₂ := by
  subst hds
  subst hn
  rfl

/-- C8 (witness): two concrete runs with different seeds but the same data
and subset size agree. -/
theorem dataset_subsetting_deterministic_witness :
    dataset_subsetting 0 [10, 20, 30, 40, 50, 60, 70, 80, 90, 100] 1 =
      dataset_subsetting 37 [10, 20, 30, 40, 50, 60, 70, 80, 90, 100] 1 :=
  dataset_subsetting_deterministic 0 37 _ _ 1 1 rfl rfl

/-- C10: the `select` is applied only for a strictly positive subset size:
a non-positive size passes the dataset through unchanged; a positive size
(within range) selects exactly the first `subset` examples, in order — the
result has length `subset` and is an initial segment of the dataset. -/
theorem subset_step_correct {α : Type} (ds : List α) (subset : ℤ) :
    (subset ≤ 0 → subset_step ds subset = some ds) ∧
    (0 < subset → subset.toNat ≤ ds.length →
      subset_step ds subset = some (ds.take subset.toNat) ∧
      (ds.take subset.toNat).length = subset.toNat ∧
      ∃ rest, ds = ds.take subset.toNat ++ rest) := by
  constructor
  · intro hle
    simp [subset_step, not_lt.2 hle]
  · intro hpos hrange
    refine ⟨?_, ?_, ⟨ds.drop subset.toNat, (List.take_append_drop _ ds).symm⟩⟩
    · simp [subset_step, hpos, select_range, hrange]
    · rw [List.length_take]
      exact min_eq_left hrange

/-- C10 (witness): with subset size 2, the concrete dataset `[3, 1, 4]`
is cut to its first two examples. -/
theorem subset_step_correct_witness :
    subset_step [3, 1, 4] 2 = some ([3, 1, 4].take (2 : ℤ).toNat) :=
  ((subset_step_correct [3, 1, 4] 2).2 (by norm_num) (by norm_num)).1

end RewardModeling
